import Mathlib

/-!
Shallow embedding of `src/api/predict.py` (Rodent_predictor): the
feature-vectorization and score-normalization pipeline behind the
`/api/predict` endpoint.  Machine floats are modelled by `ℚ`; the JSON
values of a request body by an inductive `Val`; a JSON object by an
association list; the two joblib artifacts (one-hot encoder, isolation
forest) by explicit function-valued fields of a `ServerState`.
-/

namespace RodentPredictor

/-- A JSON value appearing in a POSTed input record: a string, a number
(floats embedded as `ℚ`), or JSON `null` (Python `None`). -/
inductive Val where
  | str : String → Val
  | num : ℚ → Val
  | null : Val
deriving DecidableEq

/-- The JSON object POSTed to `/api/predict`: keys with values.
`pd.DataFrame([input_data])` makes one column per key (a key whose value
is `None` still makes a column). -/
abbrev Record := List (String × Val)

/-- `required_input_cols` of `handle_predict` (line 51). -/
def required_input_cols : List String :=
  ["soil_type", "crop_type", "tillage_type", "season",
   "temp_7day_avg_f", "precip_7day_total_in"]

/-- `categorical_cols` of `handle_predict` (line 57). -/
def categorical_cols : List String :=
  ["soil_type", "crop_type", "tillage_type", "season"]

/-- `numerical_cols` (lines 23 and 58). -/
def numerical_cols : List String :=
  ["temp_7day_avg_f", "precip_7day_total_in"]

/-- The value of a labeled row at a column: first binding wins (a Python
dict has no duplicate keys, so at most one binding ever exists). -/
def colGet : List (String × Val) → String → Option Val
  | [], _ => none
  | (a, b) :: t, c => if c = a then some b else colGet t c

/-- `col in input_df.columns`: the DataFrame built from the request body
has a column for every key of the body. -/
def hasCol (r : Record) (c : String) : Bool := (colGet r c).isSome

/-- `all(col in input_df.columns for col in required_input_cols)`
(line 52): presence of the six keys, nothing more. -/
def validateRequired (r : Record) : Bool := required_input_cols.all (hasCol r)

/-- The single row's cell at column `c` (`input_df[c]` for the one row). -/
def cell (r : Record) (c : String) : Val := (colGet r c).getD Val.null

/-- The fitted encoder object as `handle_predict` uses it:
`encoder.transform` on the four categorical values (which may raise), and
`encoder.get_feature_names_out(categorical_cols)`. -/
structure EncoderArtifact where
  transform : List Val → Except String (List ℚ)
  featureNames : List String

/-- `model.decision_function(features_final)[0]`: one scalar from the
feature row, or a raised exception. -/
abbrev ModelFn := List Val → Except String ℚ

/-- The module-level globals set by the load block (lines 15-32):
`model`, `encoder` (each `None` on load failure) and
`model_input_columns`. -/
structure ServerState where
  model : Option ModelFn
  encoder : Option EncoderArtifact
  model_input_columns : List String

/-- The successful-load branch (lines 16-25): both artifacts present and
`model_input_columns = numerical_cols + list(expected_columns)`. -/
def loadedState (e : EncoderArtifact) (m : ModelFn) : ServerState :=
  ⟨some m, some e, numerical_cols ++ e.featureNames⟩

/-- The `except` branch of the load block (lines 28-32): `model = None`,
`encoder = None`, `model_input_columns = []`. -/
def failedLoadState : ServerState := ⟨none, none, []⟩

/-- `input_df[categorical_cols]` for the single row (line 60). -/
def categoricalValues (r : Record) : List Val := categorical_cols.map (cell r)

/-- `input_df[numerical_cols]` for the single row, with its labels
(line 64). -/
def numericalRow (r : Record) : List (String × Val) :=
  numerical_cols.map (fun c => (c, cell r c))

/-- `features_combined = pd.concat([input_df[numerical_cols],
encoded_cats_df], axis=1)` (line 64): the numerical cells followed by
the encoded categorical cells, each labeled by its column name. -/
def featuresCombined (names : List String) (enc : List ℚ) (r : Record) :
    List (String × Val) :=
  numericalRow r ++ names.zip (enc.map Val.num)

/-- `features_combined.reindex(columns=model_input_columns, fill_value=0)`
(line 68): for each requested column take the row's value when the row
has that column, else 0. -/
def reindexRow (cols : List String) (row : List (String × Val)) : List Val :=
  cols.map (fun c => (colGet row c).getD (Val.num 0))

/-- `min_score = -0.2` (line 88). -/
def min_score : ℚ := -(1/5)

/-- `max_score = 0.2` (line 89). -/
def max_score : ℚ := 1/5

/-- `risk_percentage = 100 * (max_score - score_for_scaling) /
(max_score - min_score)` (line 90). -/
def rawRisk (s : ℚ) : ℚ := 100 * (max_score - s) / (max_score - min_score)

/-- `risk_percentage = max(0, min(100, risk_percentage))` (line 91). -/
def clampRisk (x : ℚ) : ℚ := max 0 (min 100 x)

/-- Python's built-in `round` on a float (line 96): round half to even. -/
def pyRound (x : ℚ) : ℤ :=
  if x - ⌊x⌋ < 1/2 then ⌊x⌋
  else if (1 : ℚ)/2 < x - ⌊x⌋ then ⌊x⌋ + 1
  else if ⌊x⌋ % 2 = 0 then ⌊x⌋ else ⌊x⌋ + 1

/-- The full risk normalizer (lines 87-96): linear rescale, clamp to
[0, 100], round to integer. -/
def normalize (s : ℚ) : ℤ := pyRound (clampRisk (rawRisk s))

/-- The error payloads `handle_predict` can return, one constructor per
`jsonify({"error": ...})` site (lines 39, 44, 53, 97). -/
inductive ApiError where
  | modelNotLoaded : ApiError
  | noInput : ApiError
  | missingFields : List String → ApiError
  | predictionFailed : String → ApiError
deriving DecidableEq

/-- The HTTP status paired with each error payload. -/
def statusCode : ApiError → ℕ
  | .modelNotLoaded => 500
  | .noInput => 400
  | .missingFields _ => 400
  | .predictionFailed _ => 500

/-- The success payload (lines 95-98): `risk_percentage` (rounded) and
`raw_anomaly_score`. -/
structure PredictResponse where
  risk_percentage : ℤ
  raw_anomaly_score : ℚ
deriving DecidableEq

/-- `handle_predict` (lines 37-97): artifact check, emptiness check,
required-field check, encoder transform, concat + reindex, model call,
normalization.  Any exception raised by the encoder or the model lands in
the one generic `except` (line 95). -/
def handle_predict (st : ServerState) (input_data : Record) :
    Except ApiError PredictResponse :=
  match st.model, st.encoder with
  | some model, some encoder =>
    if input_data.isEmpty then .error .noInput
    else if validateRequired input_data then
      match encoder.transform (categoricalValues input_data) with
      | .error e => .error (.predictionFailed e)
      | .ok encoded_cats =>
        let features_final := reindexRow st.model_input_columns
          (featuresCombined encoder.featureNames encoded_cats input_data)
        match model features_final with
        | .error e => .error (.predictionFailed e)
        | .ok s => .ok ⟨normalize s, s⟩
    else .error (.missingFields required_input_cols)
  | _, _ => .error .modelNotLoaded

/-! ## The one-hot encoder artifact, modelled from the spec -/

/-- Modelled from the spec: one feature's one-hot block.  The fitted
Categorical Encoder artifact (`one_hot_encoder.joblib`) is not part of
the repository's source; per the spec it maps a categorical value to a
fixed-width one-hot block, one slot per category known at fit time, and
"a category unseen during fitting yields all-zero contribution for that
feature's slots". -/
def oneHot1 (cats : List String) (v : Val) : List ℚ :=
  cats.map (fun c => if v = Val.str c then 1 else 0)

/-- Modelled from the spec: `encoder.get_feature_names_out(fs)`, the
encoder's stable output column names, feature name then `_` then
category, blocks in feature order. -/
def oneHotNames (fs : List String) (cats : List (List String)) : List String :=
  (List.zipWith (fun f cs => cs.map (fun c => f ++ "_" ++ c)) fs cats).flatten

/-- Modelled from the spec: `encoder.transform` on the row of categorical
values, the concatenation of the per-feature one-hot blocks. -/
def oneHotTransform (cats : List (List String)) (vals : List Val) : List ℚ :=
  (List.zipWith oneHot1 cats vals).flatten

/-- Modelled from the spec: the fitted Categorical Encoder as an
`EncoderArtifact`, with per-feature category lists `cats` fixed at fit
time (the artifact's actual lists are unknown, so they are parameters). -/
def specEncoder (cats : List (List String)) : EncoderArtifact where
  transform := fun vals => .ok (oneHotTransform cats vals)
  featureNames := oneHotNames categorical_cols cats

/-! ## Concrete data for witnesses and counterexamples -/

/-- A small fitted encoder: category lists for the four features. -/
def demoCats : List (List String) :=
  [["clay", "loam"], ["corn"], ["no-till"], ["spring"]]

/-- A model artifact that scores every row 0. -/
def demoModel : ModelFn := fun _ => .ok 0

/-- A server that loaded `specEncoder demoCats` and `demoModel`. -/
def demoState : ServerState := loadedState (specEncoder demoCats) demoModel

/-- A well-formed request whose categorical values are all known to
`demoCats`. -/
def okRecord : Record :=
  [("soil_type", Val.str "loam"), ("crop_type", Val.str "corn"),
   ("tillage_type", Val.str "no-till"), ("season", Val.str "spring"),
   ("temp_7day_avg_f", Val.num 68), ("precip_7day_total_in", Val.num 1)]

/-! ## Basic lemmas about the normalizer -/

theorem rawRisk_eq (s : ℚ) : rawRisk s = 50 - 250 * s := by
  unfold rawRisk min_score max_score
  ring

theorem pyRound_ge (x : ℚ) : ⌊x⌋ ≤ pyRound x := by
  unfold pyRound
  split_ifs <;> omega

theorem pyRound_le (x : ℚ) : pyRound x ≤ ⌊x⌋ + 1 := by
  unfold pyRound
  split_ifs <;> omega

theorem pyRound_mono {x y : ℚ} (h : x ≤ y) : pyRound x ≤ pyRound y := by
  have hf : ⌊x⌋ ≤ ⌊y⌋ := Int.floor_le_floor h
  rcases lt_or_eq_of_le hf with hlt | heq
  · calc pyRound x ≤ ⌊x⌋ + 1 := pyRound_le x
      _ ≤ ⌊y⌋ := by omega
      _ ≤ pyRound y := pyRound_ge y
  · unfold pyRound
    rw [← heq]
    have hr : x - ⌊x⌋ ≤ y - ⌊x⌋ := by linarith
    have hfy : y - ⌊y⌋ = y - ⌊x⌋ := by rw [← heq]
    split_ifs with h1 h2 h3 h4 h5 h6 h7 h8 <;> try omega
    all_goals (exfalso; rw [hfy] at *; linarith)

theorem pyRound_intCast (n : ℤ) : pyRound (n : ℚ) = n := by
  unfold pyRound
  have h0 : ⌊(n : ℚ)⌋ = n := Int.floor_intCast n
  rw [h0]
  have : (n : ℚ) - n = 0 := by ring
  rw [this]
  norm_num

theorem clampRisk_mono {x y : ℚ} (h : x ≤ y) : clampRisk x ≤ clampRisk y := by
  unfold clampRisk
  exact max_le_max le_rfl (min_le_min le_rfl h)

theorem clampRisk_nonneg (x : ℚ) : 0 ≤ clampRisk x := le_max_left _ _

theorem clampRisk_le_100 (x : ℚ) : clampRisk x ≤ 100 := by
  unfold clampRisk
  have h1 : min 100 x ≤ 100 := min_le_left _ _
  exact max_le (by norm_num) h1

theorem normalize_nonneg (s : ℚ) : 0 ≤ normalize s := by
  unfold normalize
  have h := pyRound_mono (x := 0) (y := clampRisk (rawRisk s)) (clampRisk_nonneg _)
  have h0 : pyRound ((0 : ℤ) : ℚ) = 0 := pyRound_intCast 0
  simpa using le_trans (le_of_eq h0.symm) (by simpa using h)

theorem normalize_le_100 (s : ℚ) : normalize s ≤ 100 := by
  unfold normalize
  have h := pyRound_mono (x := clampRisk (rawRisk s)) (y := 100) (clampRisk_le_100 _)
  have h0 : pyRound ((100 : ℤ) : ℚ) = 100 := pyRound_intCast 100
  calc pyRound (clampRisk (rawRisk s)) ≤ pyRound (100 : ℚ) := h
    _ = 100 := by simpa using h0

theorem normalize_of_rawRisk_ge (s : ℚ) (h : 100 ≤ rawRisk s) : normalize s = 100 := by
  unfold normalize
  have hc : clampRisk (rawRisk s) = 100 := by
    unfold clampRisk
    rw [min_eq_left h]
    exact max_eq_right (by norm_num)
  rw [hc]
  simpa using pyRound_intCast 100

theorem normalize_of_rawRisk_le (s : ℚ) (h : rawRisk s ≤ 0) : normalize s = 0 := by
  unfold normalize
  have hc : clampRisk (rawRisk s) = 0 := by
    unfold clampRisk
    have : min 100 (rawRisk s) ≤ 0 := le_trans (min_le_right _ _) h
    exact max_eq_left this
  rw [hc]
  simpa using pyRound_intCast 0

/-! ## C1: the risk normalizer's formula, anchors and clamping -/

/-- C1: the risk normalizer maps `s` to
`100 * (max_score - s) / (max_score - min_score)` with the constants
`min_score = -0.2`, `max_score = 0.2`, clamps to [0, 100], rounds to an
integer; `normalize(-0.2) = 100`, `normalize(0.2) = 0`,
`normalize(0.0) = 50`, `normalize(-10.0) = 100`, `normalize(10.0) = 0`. -/
theorem C1_risk_normalizer :
    min_score = -(1/5 : ℚ) ∧ max_score = (1/5 : ℚ) ∧
    (∀ s : ℚ, normalize s =
      pyRound (clampRisk (100 * (max_score - s) / (max_score - min_score)))) ∧
    normalize (-(1/5)) = 100 ∧ normalize (1/5) = 0 ∧ normalize 0 = 50 ∧
    normalize (-10) = 100 ∧ normalize 10 = 0 := by
  refine ⟨rfl, rfl, fun s => rfl, ?_, ?_, ?_, ?_, ?_⟩
  · exact normalize_of_rawRisk_ge _ (by rw [rawRisk_eq]; norm_num)
  · exact normalize_of_rawRisk_le _ (by rw [rawRisk_eq]; norm_num)
  · have h : rawRisk 0 = 50 := by rw [rawRisk_eq]; norm_num
    unfold normalize
    rw [h]
    have hc : clampRisk 50 = 50 := by unfold clampRisk; norm_num
    rw [hc]
    simpa using pyRound_intCast 50
  · exact normalize_of_rawRisk_ge _ (by rw [rawRisk_eq]; norm_num)
  · exact normalize_of_rawRisk_le _ (by rw [rawRisk_eq]; norm_num)

/-! ## C3: monotonicity of the normalizer -/

/-- C3: risk normalization is monotonically non-increasing in the raw
anomaly score: if `s1 < s2` then `normalize s1 ≥ normalize s2`. -/
theorem C3_normalize_antitone (s1 s2 : ℚ) (h : s1 < s2) :
    normalize s2 ≤ normalize s1 := by
  unfold normalize
  apply pyRound_mono
  apply clampRisk_mono
  rw [rawRisk_eq, rawRisk_eq]
  linarith

/-- C3 witness: the hypothesis holds at `s1 = 0`, `s2 = 1` and the
normalizer does not increase there. -/
theorem C3_witness : (0 : ℚ) < 1 ∧ normalize 1 ≤ normalize 0 :=
  ⟨by norm_num, C3_normalize_antitone 0 1 (by norm_num)⟩

/-! ## Lemmas about rows and the validator -/

theorem colGet_eq_none {row : List (String × Val)} {c : String}
    (h : c ∉ row.map Prod.fst) : colGet row c = none := by
  induction row with
  | nil => rfl
  | cons a t ih =>
    obtain ⟨k, v⟩ := a
    simp only [List.map_cons, List.mem_cons] at h
    push_neg at h
    simp only [colGet, if_neg h.1]
    exact ih h.2

theorem colGet_getD_zero {row : List (String × Val)} {n : String}
    (h : ∀ p ∈ row, p.1 = n → p.2 = Val.num 0) :
    (colGet row n).getD (Val.num 0) = Val.num 0 := by
  induction row with
  | nil => rfl
  | cons a t ih =>
    obtain ⟨k, v⟩ := a
    simp only [colGet]
    split_ifs with hk
    · exact h (k, v) (List.mem_cons_self _ _) hk.symm
    · exact ih fun p hp hpn => h p (List.mem_cons_of_mem _ hp) hpn

theorem validateRequired_isEmpty {r : Record} (h : validateRequired r = true) :
    r.isEmpty = false := by
  cases r with
  | nil => exact absurd h (by decide)
  | cons a t => rfl

/-! ## C2: shape and order of the assembled feature vector -/

/-- C2: for a valid input record whose categorical block encoded
successfully, the reindexed feature vector has exactly one entry per
model input column, in model-input-column order: entry `i` is the value
the concatenated row holds at the `i`-th column name, and 0 when the row
has no such column. -/
theorem C2_feature_vector (ea : EncoderArtifact) (r : Record) (enc : List ℚ)
    (hval : validateRequired r = true)
    (ht : ea.transform (categoricalValues r) = .ok enc) :
    (reindexRow (numerical_cols ++ ea.featureNames)
        (featuresCombined ea.featureNames enc r)).length
      = (numerical_cols ++ ea.featureNames).length ∧
    (∀ i : ℕ,
      (reindexRow (numerical_cols ++ ea.featureNames)
          (featuresCombined ea.featureNames enc r))[i]?
        = ((numerical_cols ++ ea.featureNames)[i]?).map
            (fun c => (colGet (featuresCombined ea.featureNames enc r) c).getD
              (Val.num 0))) ∧
    (∀ c : String, c ∉ (featuresCombined ea.featureNames enc r).map Prod.fst →
      (colGet (featuresCombined ea.featureNames enc r) c).getD (Val.num 0)
        = Val.num 0) := by
  refine ⟨by simp [reindexRow], fun i => ?_, fun c hc => ?_⟩
  · simp only [reindexRow]
    exact List.getElem?_map _ _ _
  · rw [colGet_eq_none hc]
    rfl

/-- C2 witness: a concrete valid record against the demo encoder. -/
theorem C2_witness :
    validateRequired okRecord = true ∧
    (specEncoder demoCats).transform (categoricalValues okRecord)
      = .ok (oneHotTransform demoCats (categoricalValues okRecord)) ∧
    (reindexRow (numerical_cols ++ (specEncoder demoCats).featureNames)
        (featuresCombined (specEncoder demoCats).featureNames
          (oneHotTransform demoCats (categoricalValues okRecord)) okRecord)).length
      = (numerical_cols ++ (specEncoder demoCats).featureNames).length :=
  ⟨by decide, rfl,
    (C2_feature_vector (specEncoder demoCats) okRecord
      (oneHotTransform demoCats (categoricalValues okRecord)) (by decide) rfl).1⟩

/-! ## C9: reindexing a complete, already-ordered row is the identity -/

/-- C9: when the labeled row's column labels are exactly the requested
columns, in order, and those columns have no duplicate, reindexing
returns the row's values unchanged. -/
theorem C9_reindex_idempotent (cols : List String) (row : List (String × Val))
    (hkeys : row.map Prod.fst = cols) (hnd : cols.Nodup) :
    reindexRow cols row = row.map Prod.snd := by
  induction row generalizing cols with
  | nil => subst hkeys; rfl
  | cons a t ih =>
    obtain ⟨k, v⟩ := a
    subst hkeys
    simp only [List.map_cons] at hnd
    rw [List.nodup_cons] at hnd
    simp only [reindexRow, List.map_cons]
    congr 1
    · simp [colGet]
    · have htail : ∀ c ∈ t.map Prod.fst,
          (colGet ((k, v) :: t) c).getD (Val.num 0)
            = (colGet t c).getD (Val.num 0) := by
        intro c hcmem
        have hck : c ≠ k := fun h => hnd.1 (h ▸ hcmem)
        simp [colGet, hck]
      rw [List.map_congr_left htail]
      exact ih (t.map Prod.fst) rfl hnd.2

/-- C9 witness: a concrete complete row in column order. -/
theorem C9_witness :
    ([("a", Val.num 3), ("b", Val.str "x")].map Prod.fst = ["a", "b"]) ∧
    (["a", "b"] : List String).Nodup ∧
    reindexRow ["a", "b"] [("a", Val.num 3), ("b", Val.str "x")]
      = [("a", Val.num 3), ("b", Val.str "x")].map Prod.snd :=
  ⟨by decide, by decide,
    C9_reindex_idempotent ["a", "b"] [("a", Val.num 3), ("b", Val.str "x")]
      (by decide) (by decide)⟩

/-! ## C4: missing required fields -/

/-- C4 counterexample: the empty record is missing every required field,
yet the handler answers with the "No input data provided" error, not the
missing-fields error naming the six required fields. -/
theorem C4_counterexample :
    (∃ c ∈ required_input_cols, colGet ([] : Record) c = none) ∧
    handle_predict demoState [] = .error .noInput ∧
    handle_predict demoState [] ≠ .error (.missingFields required_input_cols) := by
  refine ⟨⟨"soil_type", by decide, rfl⟩, rfl, fun h => ?_⟩
  rw [show handle_predict demoState [] = .error .noInput from rfl] at h
  cases h

/-- C4 (amended): a NON-EMPTY record missing at least one required field
gets the missing-fields client error (status 400) whose payload lists
all six required fields, not just the missing ones. -/
theorem C4_missing_fields (e : EncoderArtifact) (m : ModelFn) (cols : List String)
    (r : Record) (hne : r ≠ [])
    (hmiss : ∃ c ∈ required_input_cols, colGet r c = none) :
    handle_predict ⟨some m, some e, cols⟩ r
        = .error (.missingFields required_input_cols) ∧
    required_input_cols = ["soil_type", "crop_type", "tillage_type", "season",
      "temp_7day_avg_f", "precip_7day_total_in"] ∧
    statusCode (.missingFields required_input_cols) = 400 := by
  refine ⟨?_, rfl, rfl⟩
  have hval : validateRequired r = false := by
    obtain ⟨c, hcmem, hcnone⟩ := hmiss
    unfold validateRequired
    rw [List.all_eq_false]
    exact ⟨c, hcmem, by simp [hasCol, hcnone]⟩
  have hie : r.isEmpty = false := by
    cases r with
    | nil => exact absurd rfl hne
    | cons a t => rfl
  simp [handle_predict, hie, hval]

/-- C4 witness: a non-empty record with only `soil_type`. -/
theorem C4_witness :
    (([("soil_type", Val.str "loam")] : Record) ≠ []) ∧
    (∃ c ∈ required_input_cols,
      colGet [("soil_type", Val.str "loam")] c = none) ∧
    handle_predict ⟨some demoModel, some (specEncoder demoCats), []⟩
        [("soil_type", Val.str "loam")]
      = .error (.missingFields required_input_cols) :=
  ⟨by decide, by decide,
    (C4_missing_fields (specEncoder demoCats) demoModel []
      [("soil_type", Val.str "loam")] (by decide) (by decide)).1⟩

/-! ## C5: validation checks presence only, not non-nullness -/

/-- A record with all six keys present but a `null` value for
`soil_type`. -/
def nullRecord : Record :=
  [("soil_type", Val.null), ("crop_type", Val.str "corn"),
   ("tillage_type", Val.str "no-till"), ("season", Val.str "spring"),
   ("temp_7day_avg_f", Val.num 68), ("precip_7day_total_in", Val.num 1)]

/-- C5 counterexample: a record with all six keys where one value is
null DOES pass validation (the claim says it must not). -/
theorem C5_counterexample :
    (∀ c ∈ required_input_cols, (colGet nullRecord c).isSome = true) ∧
    colGet nullRecord "soil_type" = some Val.null ∧
    validateRequired nullRecord = true := by decide

/-- C5 (amended): validation passes exactly when all six required keys
are present as columns; values are never inspected, so a record with a
null value still passes. -/
theorem C5_presence_only :
    (∀ r : Record, validateRequired r = true ↔
      ∀ c ∈ required_input_cols, (colGet r c).isSome = true) ∧
    validateRequired nullRecord = true := by
  refine ⟨fun r => ?_, by decide⟩
  simp [validateRequired, hasCol, List.all_eq_true]

/-! ## C8: fail fast when the artifacts did not load -/

/-- C8: if the model or the encoder is missing, every invocation, for
every input, answers the dedicated model-not-loaded server error before
any validation, encoding or scoring. -/
theorem C8_artifacts_unavailable (st : ServerState) (r : Record)
    (h : st.model = none ∨ st.encoder = none) :
    handle_predict st r = .error .modelNotLoaded ∧
    statusCode .modelNotLoaded = 500 := by
  obtain ⟨om, oe, cols⟩ := st
  refine ⟨?_, rfl⟩
  rcases h with h | h
  · simp only at h
    subst h
    cases oe <;> rfl
  · simp only at h
    subst h
    cases om <;> rfl

/-- C8 witness: the failed-load state refuses a well-formed record. -/
theorem C8_witness :
    handle_predict failedLoadState okRecord = .error .modelNotLoaded ∧
    statusCode .modelNotLoaded = 500 :=
  C8_artifacts_unavailable failedLoadState okRecord (Or.inl rfl)

/-! ## C10: the response depends only on the six required fields -/

/-- C10: two valid records that agree on the six required columns get
identical responses, whatever extra keys either carries. -/
theorem C10_only_required_fields (st : ServerState) (r1 r2 : Record)
    (h1 : validateRequired r1 = true) (h2 : validateRequired r2 = true)
    (hagree : ∀ c ∈ required_input_cols, colGet r1 c = colGet r2 c) :
    handle_predict st r1 = handle_predict st r2 := by
  obtain ⟨om, oe, cols⟩ := st
  cases om with
  | none => cases oe <;> rfl
  | some m =>
    cases oe with
    | none => rfl
    | some e =>
      have hsub : ∀ c ∈ categorical_cols, c ∈ required_input_cols := by decide
      have hsubn : ∀ c ∈ numerical_cols, c ∈ required_input_cols := by decide
      have hc : categoricalValues r1 = categoricalValues r2 := by
        unfold categoricalValues
        refine List.map_congr_left fun c hcmem => ?_
        unfold cell
        rw [hagree c (hsub c hcmem)]
      have hn : numericalRow r1 = numericalRow r2 := by
        unfold numericalRow
        refine List.map_congr_left fun c hcmem => ?_
        unfold cell
        rw [hagree c (hsubn c hcmem)]
      have hie1 : r1.isEmpty = false := validateRequired_isEmpty h1
      have hie2 : r2.isEmpty = false := validateRequired_isEmpty h2
      simp only [handle_predict, featuresCombined, hie1, hie2, h1, h2, hc, hn,
        Bool.false_eq_true, if_false, if_true]

/-- C10 witness: the same record with and without an extra key. -/
theorem C10_witness :
    validateRequired okRecord = true ∧
    validateRequired (okRecord ++ [("extra_key", Val.num 7)]) = true ∧
    handle_predict demoState okRecord
      = handle_predict demoState (okRecord ++ [("extra_key", Val.num 7)]) :=
  ⟨by decide, by decide,
    C10_only_required_fields demoState okRecord
      (okRecord ++ [("extra_key", Val.num 7)]) (by decide) (by decide) (by decide)⟩

/-! ## Lemmas about the modelled one-hot encoder -/

theorem oneHotNames_cons (f : String) (fs : List String) (cs : List String)
    (cats : List (List String)) :
    oneHotNames (f :: fs) (cs :: cats)
      = cs.map (fun c => f ++ "_" ++ c) ++ oneHotNames fs cats := rfl

theorem oneHotTransform_cons (cs : List String) (cats : List (List String))
    (v : Val) (vals : List Val) :
    oneHotTransform (cs :: cats) (v :: vals)
      = oneHot1 cs v ++ oneHotTransform cats vals := rfl

theorem oneHotNames_getD_mem (j : ℕ) :
    ∀ (fs : List String) (cats : List (List String)) (c : String),
      j < fs.length → c ∈ cats.getD j [] →
      fs.getD j "" ++ "_" ++ c ∈ oneHotNames fs cats := by
  induction j with
  | zero =>
    intro fs cats c hj hc
    cases fs with
    | nil => simp at hj
    | cons f fs' =>
      cases cats with
      | nil => simp at hc
      | cons cs cats' =>
        rw [oneHotNames_cons]
        exact List.mem_append_left _ (List.mem_map_of_mem _ hc)
  | succ n ih =>
    intro fs cats c hj hc
    cases fs with
    | nil => simp at hj
    | cons f fs' =>
      cases cats with
      | nil => simp at hc
      | cons cs cats' =>
        rw [oneHotNames_cons]
        exact List.mem_append_right _
          (ih fs' cats' c (by simpa using hj) (by simpa using hc))

/-- In the labeled encoded block, every binding whose column belongs to
an unseen-valued feature carries the value 0. -/
theorem oneHot_zip_zero (j : ℕ) :
    ∀ (fs : List String) (cats : List (List String)) (vals : List Val)
      (x c0 : String),
      (oneHotNames fs cats).Nodup →
      c0 ∈ cats.getD j [] →
      vals.getD j Val.null = Val.str x →
      x ∉ cats.getD j [] →
      j < fs.length → j < vals.length →
      ∀ p ∈ (oneHotNames fs cats).zip ((oneHotTransform cats vals).map Val.num),
        p.1 = fs.getD j "" ++ "_" ++ c0 → p.2 = Val.num 0 := by
  induction j with
  | zero =>
    intro fs cats vals x c0 hnd hc0 hv hx hjf hjv p hp hpn
    obtain ⟨p1, p2⟩ := p
    cases fs with
    | nil => simp at hjf
    | cons f fs' =>
    cases vals with
    | nil => simp at hjv
    | cons v vals' =>
    cases cats with
    | nil => simp at hc0
    | cons cs cats' =>
    simp only [List.getD_cons_zero] at hv hc0 hx hpn
    rw [oneHotNames_cons] at hnd hp
    rw [oneHotTransform_cons, List.map_append] at hp
    rw [List.zip_append (by simp [oneHot1])] at hp
    rw [List.nodup_append] at hnd
    rcases List.mem_append.1 hp with hmem | hmem
    · have hzip : (cs.map (fun c => f ++ "_" ++ c)).zip ((oneHot1 cs v).map Val.num)
          = cs.map (fun c =>
              (f ++ "_" ++ c, Val.num (if v = Val.str c then 1 else 0))) := by
        rw [show (oneHot1 cs v).map Val.num
            = cs.map (fun c => Val.num (if v = Val.str c then 1 else 0)) from by
          simp [oneHot1], List.zip_map']
      rw [hzip] at hmem
      obtain ⟨c, hcmem, hpc⟩ := List.mem_map.1 hmem
      have hxc : x ≠ c := fun h => hx (h ▸ hcmem)
      have hvc : v ≠ Val.str c := by
        rw [hv]
        exact fun h => hxc (Val.str.inj h)
      rw [← hpc]
      simp [hvc]
    · exfalso
      have hkey : p1 ∈ oneHotNames fs' cats' := (List.of_mem_zip hmem).1
      have hhead : f ++ "_" ++ c0 ∈ cs.map (fun c => f ++ "_" ++ c) :=
        List.mem_map_of_mem _ hc0
      exact hnd.2.2 hhead (hpn ▸ hkey)
  | succ n ih =>
    intro fs cats vals x c0 hnd hc0 hv hx hjf hjv p hp hpn
    obtain ⟨p1, p2⟩ := p
    cases fs with
    | nil => simp at hjf
    | cons f fs' =>
    cases vals with
    | nil => simp at hjv
    | cons v vals' =>
    cases cats with
    | nil => simp at hc0
    | cons cs cats' =>
    simp only [List.getD_cons_succ] at hv hc0 hx hpn
    rw [oneHotNames_cons] at hnd hp
    rw [oneHotTransform_cons, List.map_append] at hp
    rw [List.zip_append (by simp [oneHot1])] at hp
    rw [List.nodup_append] at hnd
    rcases List.mem_append.1 hp with hmem | hmem
    · exfalso
      have hkey : p1 ∈ cs.map (fun c => f ++ "_" ++ c) := (List.of_mem_zip hmem).1
      have hname : fs'.getD n "" ++ "_" ++ c0 ∈ oneHotNames fs' cats' :=
        oneHotNames_getD_mem n fs' cats' c0 (by simpa using hjf) hc0
      exact hnd.2.2 (hpn ▸ hkey) hname
    · exact ih fs' cats' vals' x c0 hnd.2.1 hc0 hv hx
        (by simpa using hjf) (by simpa using hjv) (p1, p2) hmem hpn

/-! ## C6: unseen categories degrade to zero slots, not to an error -/

/-- C6: a valid record whose `j`-th categorical value was never seen at
fit time still yields a success response with a risk percentage in
[0, 100]; its feature vector has full length and holds 0 at every one of
that feature's one-hot columns. -/
theorem C6_unseen_category (cats : List (List String)) (m : ModelFn) (r : Record)
    (j : ℕ) (x : String) (s : ℚ)
    (hj : j < 4)
    (hval : validateRequired r = true)
    (hx : cell r (categorical_cols.getD j "") = Val.str x)
    (hunseen : x ∉ cats.getD j [])
    (hnd : (numerical_cols ++ oneHotNames categorical_cols cats).Nodup)
    (hm : m (reindexRow (numerical_cols ++ oneHotNames categorical_cols cats)
            (featuresCombined (oneHotNames categorical_cols cats)
              (oneHotTransform cats (categoricalValues r)) r)) = .ok s) :
    handle_predict (loadedState (specEncoder cats) m) r = .ok ⟨normalize s, s⟩ ∧
    0 ≤ normalize s ∧ normalize s ≤ 100 ∧
    (reindexRow (numerical_cols ++ oneHotNames categorical_cols cats)
        (featuresCombined (oneHotNames categorical_cols cats)
          (oneHotTransform cats (categoricalValues r)) r)).length
      = (numerical_cols ++ oneHotNames categorical_cols cats).length ∧
    (∀ c0 ∈ cats.getD j [], ∀ i : ℕ,
      (numerical_cols ++ oneHotNames categorical_cols cats)[i]?
          = some (categorical_cols.getD j "" ++ "_" ++ c0) →
      (reindexRow (numerical_cols ++ oneHotNames categorical_cols cats)
          (featuresCombined (oneHotNames categorical_cols cats)
            (oneHotTransform cats (categoricalValues r)) r))[i]?
        = some (Val.num 0)) := by
  have hie : r.isEmpty = false := validateRequired_isEmpty hval
  have hvals : (categoricalValues r).getD j Val.null
      = cell r (categorical_cols.getD j "") := by
    interval_cases j <;> rfl
  refine ⟨?_, normalize_nonneg s, normalize_le_100 s, by simp [reindexRow],
    fun c0 hc0 i hi => ?_⟩
  · simp only [handle_predict, loadedState, specEncoder, hie, Bool.false_eq_true,
      if_false, hval, if_true]
    rw [hm]
  · have hzero : (colGet (featuresCombined (oneHotNames categorical_cols cats)
        (oneHotTransform cats (categoricalValues r)) r)
        (categorical_cols.getD j "" ++ "_" ++ c0)).getD (Val.num 0)
        = Val.num 0 := by
      apply colGet_getD_zero
      intro p hp hpn
      rw [List.nodup_append] at hnd
      rcases List.mem_append.1 hp with hmem | hmem
      · exfalso
        obtain ⟨c, hcmem, rfl⟩ := List.mem_map.1 hmem
        simp only at hpn
        have hname : categorical_cols.getD j "" ++ "_" ++ c0
            ∈ oneHotNames categorical_cols cats :=
          oneHotNames_getD_mem j categorical_cols cats c0
            (by simpa [categorical_cols] using hj) hc0
        exact hnd.2.2 (hpn ▸ hcmem) hname
      · have hv' : (categoricalValues r).getD j Val.null = Val.str x := by
          rw [hvals]; exact hx
        exact oneHot_zip_zero j categorical_cols cats (categoricalValues r) x c0
          hnd.2.1 hc0 hv' hunseen (by simpa [categorical_cols] using hj)
          (by simpa [categoricalValues, categorical_cols] using hj) p hmem hpn
    simp only [reindexRow]
    rw [List.getElem?_map _ _ i, hi]
    simpa using hzero

/-- A record whose `soil_type` was never seen by the demo encoder. -/
def unseenRecord : Record :=
  [("soil_type", Val.str "peat"), ("crop_type", Val.str "corn"),
   ("tillage_type", Val.str "no-till"), ("season", Val.str "spring"),
   ("temp_7day_avg_f", Val.num 68), ("precip_7day_total_in", Val.num 1)]

/-- C6 witness: the unseen `soil_type` value "peat" still gets a
success response. -/
theorem C6_witness :
    handle_predict (loadedState (specEncoder demoCats) demoModel) unseenRecord
      = .ok ⟨normalize 0, 0⟩ :=
  (C6_unseen_category demoCats demoModel unseenRecord 0 "peat" 0
    (by decide) (by decide) (by decide) (by decide) (by decide) rfl).1

/-! ## C7: one undifferentiated failure path for encoder and model -/

/-- An encoder artifact whose transform always raises. -/
def boomEncoder : EncoderArtifact := ⟨fun _ => .error "boom", []⟩

/-- A server whose encoder raises on transform. -/
def encBoomState : ServerState := loadedState boomEncoder demoModel

/-- A server whose model raises on scoring. -/
def modelBoomState : ServerState :=
  loadedState (specEncoder demoCats) (fun _ => .error "boom")

/-- C7 counterexample: an encoder-transform failure and a model-call
failure with the same underlying exception produce the very same error
value — one generic "Prediction failed" payload, with no distinguishable
`EncodingError` / `PredictionError` variants. -/
theorem C7_counterexample :
    handle_predict encBoomState okRecord = .error (.predictionFailed "boom") ∧
    handle_predict modelBoomState okRecord = .error (.predictionFailed "boom") ∧
    handle_predict encBoomState okRecord = handle_predict modelBoomState okRecord :=
  ⟨rfl, rfl, rfl⟩

/-- C7 (amended): a failing encoder transform and a failing model call
are both swallowed by the single generic handler and surfaced as the
same `predictionFailed` server error (status 500); the two failure kinds
are not distinguishable error variants. -/
theorem C7_generic_prediction_error (m : ModelFn) (ea : EncoderArtifact)
    (cols : List String) (r : Record) (msg : String)
    (hne : r.isEmpty = false) (hval : validateRequired r = true) :
    (ea.transform (categoricalValues r) = .error msg →
      handle_predict ⟨some m, some ea, cols⟩ r
        = .error (.predictionFailed msg)) ∧
    (∀ enc : List ℚ, ea.transform (categoricalValues r) = .ok enc →
      m (reindexRow cols (featuresCombined ea.featureNames enc r)) = .error msg →
      handle_predict ⟨some m, some ea, cols⟩ r
        = .error (.predictionFailed msg)) ∧
    statusCode (.predictionFailed msg) = 500 := by
  refine ⟨fun ht => ?_, fun enc ht hm => ?_, rfl⟩
  · simp only [handle_predict, hne, Bool.false_eq_true, if_false, hval, if_true]
    rw [ht]
  · simp only [handle_predict, hne, Bool.false_eq_true, if_false, hval, if_true]
    rw [ht]
    dsimp only
    rw [hm]

/-- C7 witness: the generic error at a concrete failing encoder. -/
theorem C7_witness :
    okRecord.isEmpty = false ∧ validateRequired okRecord = true ∧
    boomEncoder.transform (categoricalValues okRecord) = .error "boom" ∧
    handle_predict ⟨some demoModel, some boomEncoder, []⟩ okRecord
      = .error (.predictionFailed "boom") :=
  ⟨rfl, by decide, rfl,
    (C7_generic_prediction_error demoModel boomEncoder [] okRecord "boom"
      rfl (by decide)).1 rfl⟩

end RodentPredictor
